import Mathlib

/-!
Shallow embedding of watchman's `src/cfg.c`: layered configuration
resolution (`cfg_get_json`), typed accessors (`cfg_get_string`,
`cfg_get_int`, `cfg_get_bool`, `cfg_get_double`) and the root-marker
policy computation (`cfg_compute_root_files`, with its helpers
`is_array_of_strings` and `prepend_watchmanconfig_to_array`).

JSON values (jansson's `json_t`) are modelled as a tree-shaped inductive
type; `NULL` pointers coming out of lookups are modelled with `Option`.
Double payloads are modelled as `Rat`: no claim computes with doubles,
only the variant dispatch matters, and jansson's `json_real_value`
returns `0.0` on a non-real argument.

The two process-wide layers (`global_cfg`, `arg_cfg`) form an explicit
`ConfigState`; the in-place mutation that
`prepend_watchmanconfig_to_array` performs through the aliased pointer
returned by `cfg_get_json` is modelled by returning an updated state
from `cfg_compute_root_files`.
-/

/-- jansson `json_t` value tree: variants Null, Bool (true/false), Integer,
Double, String, Array, Object (unique keys). -/
inductive Json where
  | null : Json
  | bool (b : Bool) : Json
  | integer (n : Int) : Json
  | real (r : Rat) : Json
  | string (s : String) : Json
  | array (elems : List Json) : Json
  | object (entries : List (String × Json)) : Json


/-- `json_is_string`. -/
def json_is_string : Json → Bool
  | Json.string _ => true
  | _ => false

/-- `json_is_integer`. -/
def json_is_integer : Json → Bool
  | Json.integer _ => true
  | _ => false

/-- `json_is_real`. -/
def json_is_real : Json → Bool
  | Json.real _ => true
  | _ => false

/-- `json_is_number`: integer or real. -/
def json_is_number (v : Json) : Bool :=
  json_is_integer v || json_is_real v

/-- `json_is_boolean`: the true or false variant. -/
def json_is_boolean : Json → Bool
  | Json.bool _ => true
  | _ => false

/-- `json_is_true`. -/
def json_is_true : Json → Bool
  | Json.bool b => b
  | _ => false

/-- `json_is_array`. -/
def json_is_array : Json → Bool
  | Json.array _ => true
  | _ => false

/-- `json_string_value`: the string payload, or NULL (`none`) for a
non-string argument. -/
def json_string_value : Json → Option String
  | Json.string s => some s
  | _ => none

/-- `json_integer_value`: the integer payload, or 0 for a non-integer. -/
def json_integer_value : Json → Int
  | Json.integer n => n
  | _ => 0

/-- `json_real_value`: the double payload, or 0.0 for a non-real. -/
def json_real_value : Json → Rat
  | Json.real r => r
  | _ => 0

/-- `json_array_size` composed with `json_array_get` over all indices:
the element list of an array, empty for a non-array. -/
def json_array_elems : Json → List Json
  | Json.array xs => xs
  | _ => []

/-- `json_object_get`: look a key up in an object's entry list
(keys are unique in a jansson object). -/
def json_object_get : List (String × Json) → String → Option Json
  | [], _ => none
  | (k, v) :: rest, name => if k = name then some v else json_object_get rest name

/-- Replace the value stored under `name` (the key's entry keeps its
place); entries under other keys are untouched.  This is the observable
effect of mutating, through an aliased `json_t *`, the value an object
holds under `name`. -/
def json_object_update (name : String) (v : Json) : List (String × Json) → List (String × Json)
  | [] => []
  | (k, w) :: rest =>
      if k = name then (k, v) :: rest else (k, w) :: json_object_update name v rest

/-- The two process-wide configuration layers `global_cfg` and `arg_cfg`
(each a nullable pointer to a jansson object). -/
structure ConfigState where
  global_cfg : Option (List (String × Json))
  arg_cfg : Option (List (String × Json))


/-- The parts of `w_root_t` this core reads: the per-root override
object `config_file` (a nullable pointer). -/
structure w_root_t where
  config_file : Option (List (String × Json))


/-- `cfg_get_raw`: look `name` up in one layer if that layer exists. -/
def cfg_get_raw (name : String) : Option (List (String × Json)) → Option Json
  | some obj => json_object_get obj name
  | none => none

/-- The root-view part of `cfg_get_json`:
`root && root->config_file ? json_object_get(root->config_file, name) : NULL`. -/
def root_view_get (root : Option w_root_t) (name : String) : Option Json :=
  match root with
  | some r =>
      match r.config_file with
      | some cf => json_object_get cf name
      | none => none
  | none => none

/-- `cfg_get_json`: root override first, then the argument layer, then
the global layer; the first non-NULL value wins. -/
def cfg_get_json (st : ConfigState) (root : Option w_root_t) (name : String) : Option Json :=
  match root_view_get root name with
  | some val => some val
  | none =>
      match cfg_get_raw name st.arg_cfg with
      | some val => some val
      | none => cfg_get_raw name st.global_cfg

/-- Modelled from the spec: `w_log(W_LOG_FATAL, ...)` lives outside this
file's source and "must halt the calling path (abort or
unrecoverable-error propagation)", so a call that hits it is modelled as
the distinguished `fatal` outcome carrying the log message, and a normal
return as `value`. -/
inductive CfgResult (α : Type) where
  | fatal (msg : String) : CfgResult α
  | value (v : α) : CfgResult α


/-- `cfg_get_string`. -/
def cfg_get_string (st : ConfigState) (root : Option w_root_t) (name : String)
    (defval : String) : CfgResult String :=
  match cfg_get_json st root name with
  | some val =>
      if json_is_string val then
        CfgResult.value ((json_string_value val).getD "")
      else
        CfgResult.fatal ("Expected config value " ++ name ++ " to be a string")
  | none => CfgResult.value defval

/-- `cfg_get_int`. -/
def cfg_get_int (st : ConfigState) (root : Option w_root_t) (name : String)
    (defval : Int) : CfgResult Int :=
  match cfg_get_json st root name with
  | some val =>
      if json_is_integer val then
        CfgResult.value (json_integer_value val)
      else
        CfgResult.fatal ("Expected config value " ++ name ++ " to be an integer")
  | none => CfgResult.value defval

/-- `cfg_get_bool`. -/
def cfg_get_bool (st : ConfigState) (root : Option w_root_t) (name : String)
    (defval : Bool) : CfgResult Bool :=
  match cfg_get_json st root name with
  | some val =>
      if json_is_boolean val then
        CfgResult.value (json_is_true val)
      else
        CfgResult.fatal ("Expected config value " ++ name ++ " to be a boolean")
  | none => CfgResult.value defval

/-- `cfg_get_double`: note the check is `json_is_number`, and the
returned scalar is `json_real_value`. -/
def cfg_get_double (st : ConfigState) (root : Option w_root_t) (name : String)
    (defval : Rat) : CfgResult Rat :=
  match cfg_get_json st root name with
  | some val =>
      if json_is_number val then
        CfgResult.value (json_real_value val)
      else
        CfgResult.fatal ("Expected config value " ++ name ++ " to be a number")
  | none => CfgResult.value defval

/-- `is_array_of_strings`: an array all of whose elements are strings. -/
def is_array_of_strings (ref : Json) : Bool :=
  match ref with
  | Json.array xs => xs.all json_is_string
  | _ => false

/-- `prepend_watchmanconfig_to_array`: append `".watchmanconfig"` to an
empty array; otherwise compare only index 0's string value and insert
`".watchmanconfig"` at index 0 unless it is already there. -/
def prepend_watchmanconfig_to_array (ref : List Json) : List Json :=
  match ref with
  | [] => ref ++ [Json.string ".watchmanconfig"]
  | first :: _ =>
      if json_string_value first = some ".watchmanconfig" then ref
      else Json.string ".watchmanconfig" :: ref

/-- The inline `enforce_root_files` read of `cfg_compute_root_files`
(lines 170-179 of cfg.c): `*enforcing = false`, then if the key resolves
it must be a boolean (else fatal) and `*enforcing = json_is_true(ref)`. -/
def read_enforce_root_files (st : ConfigState) : CfgResult Bool :=
  match cfg_get_json st none "enforce_root_files" with
  | some ref =>
      if json_is_boolean ref then CfgResult.value (json_is_true ref)
      else CfgResult.fatal "Expected config value enforce_root_files to be boolean"
  | none => CfgResult.value false

/-- The value returned by `cfg_get_json(NULL, name)` is an alias into
the layer that supplied it, so mutating it in place rewrites that layer's
stored value: locate the winning layer (argument first, then global) and
replace its value under `name`. -/
def update_winning_layer (st : ConfigState) (name : String) (v : Json) : ConfigState :=
  match cfg_get_raw name st.arg_cfg with
  | some _ => { st with arg_cfg := st.arg_cfg.map (json_object_update name v) }
  | none =>
      match cfg_get_raw name st.global_cfg with
      | some _ => { st with global_cfg := st.global_cfg.map (json_object_update name v) }
      | none => st

/-- Result of `cfg_compute_root_files`: either a fatal log halted the
call, or it returned a marker array and the enforcing flag; the final
`ConfigState` records the in-place mutation performed on the winning
layer's stored array (the state is unchanged when no prepend happened). -/
inductive RootFilesResult where
  | fatal (msg : String) : RootFilesResult
  | ok (files : List Json) (enforcing : Bool) (st : ConfigState) : RootFilesResult


/-- `cfg_compute_root_files`: read `_ignore_watchmanconfig` (bool
accessor, no root, default false) and `enforce_root_files`; then try
`root_files`, the deprecated `root_restrict_files`, and finally
synthesize the conservative default. -/
def cfg_compute_root_files (st : ConfigState) : RootFilesResult :=
  match cfg_get_bool st none "_ignore_watchmanconfig" false with
  | CfgResult.fatal m => RootFilesResult.fatal m
  | CfgResult.value ignore_watchmanconfig =>
      match read_enforce_root_files st with
      | CfgResult.fatal m => RootFilesResult.fatal m
      | CfgResult.value enforcing =>
          match cfg_get_json st none "root_files" with
          | some ref =>
              if is_array_of_strings ref then
                let newxs := prepend_watchmanconfig_to_array (json_array_elems ref)
                RootFilesResult.ok newxs enforcing
                  (update_winning_layer st "root_files" (Json.array newxs))
              else
                RootFilesResult.fatal "global config root_files must be an array of strings"
          | none =>
              match cfg_get_json st none "root_restrict_files" with
              | some ref =>
                  if is_array_of_strings ref then
                    if ignore_watchmanconfig then
                      RootFilesResult.ok (json_array_elems ref) true st
                    else
                      let newxs := prepend_watchmanconfig_to_array (json_array_elems ref)
                      RootFilesResult.ok newxs true
                        (update_winning_layer st "root_restrict_files" (Json.array newxs))
                  else
                    RootFilesResult.fatal
                      "deprecated global config root_restrict_files must be an array of strings"
              | none =>
                  if !ignore_watchmanconfig then
                    RootFilesResult.ok
                      [Json.string ".watchmanconfig", Json.string ".hg",
                       Json.string ".git", Json.string ".svn"] enforcing st
                  else
                    RootFilesResult.ok
                      [Json.string ".hg", Json.string ".git", Json.string ".svn"]
                      enforcing st

/-! ## Basic lemmas about the helpers -/

theorem json_string_value_wmc_iff (v : Json) :
    json_string_value v = some ".watchmanconfig" ↔ v = Json.string ".watchmanconfig" := by
  cases v <;> simp [json_string_value]

theorem prepend_nil_eq :
    prepend_watchmanconfig_to_array [] = [Json.string ".watchmanconfig"] := rfl

theorem prepend_cons_wmc (rest : List Json) :
    prepend_watchmanconfig_to_array (Json.string ".watchmanconfig" :: rest) =
      Json.string ".watchmanconfig" :: rest := by
  simp [prepend_watchmanconfig_to_array, json_string_value]

theorem prepend_cons_ne (x : Json) (rest : List Json)
    (h : x ≠ Json.string ".watchmanconfig") :
    prepend_watchmanconfig_to_array (x :: rest) =
      Json.string ".watchmanconfig" :: x :: rest := by
  have hv : json_string_value x ≠ some ".watchmanconfig" := fun hc =>
    h ((json_string_value_wmc_iff x).mp hc)
  simp [prepend_watchmanconfig_to_array, hv]

theorem prepend_head? (xs : List Json) :
    (prepend_watchmanconfig_to_array xs).head? = some (Json.string ".watchmanconfig") := by
  cases xs with
  | nil => rfl
  | cons first rest =>
      by_cases h : first = Json.string ".watchmanconfig"
      · subst h; rw [prepend_cons_wmc]; rfl
      · rw [prepend_cons_ne first rest h]; rfl

theorem is_array_of_strings_elim (ref : Json) (h : is_array_of_strings ref = true) :
    ∃ xs, ref = Json.array xs ∧ ∀ x ∈ xs, json_is_string x = true := by
  cases ref <;> simp [is_array_of_strings] at h
  case array xs => exact ⟨xs, rfl, by simpa [List.all_eq_true] using h⟩

theorem json_object_get_update_self (name : String) (v : Json)
    (l : List (String × Json)) :
    json_object_get (json_object_update name v l) name =
      (json_object_get l name).map (fun _ => v) := by
  induction l with
  | nil => rfl
  | cons hd tl ih =>
      obtain ⟨k, w⟩ := hd
      by_cases hk : k = name
      · simp [json_object_update, json_object_get, hk]
      · simp [json_object_update, json_object_get, hk, ih]

theorem json_object_get_update_other (name : String) (v : Json)
    (l : List (String × Json)) (k : String) (h : k ≠ name) :
    json_object_get (json_object_update name v l) k = json_object_get l k := by
  induction l with
  | nil => rfl
  | cons hd tl ih =>
      obtain ⟨kk, w⟩ := hd
      by_cases hkk : kk = name
      · subst hkk
        have hne : kk ≠ k := fun hc => h hc.symm
        simp [json_object_update, json_object_get, hne]
      · by_cases hkq : kk = k
        · simp [json_object_update, json_object_get, hkk, hkq, h]
        · simp [json_object_update, json_object_get, hkk, hkq, ih]

theorem cfg_get_raw_map_update_other (name : String) (v : Json)
    (o : Option (List (String × Json))) (k : String) (h : k ≠ name) :
    cfg_get_raw k (o.map (json_object_update name v)) = cfg_get_raw k o := by
  cases o with
  | none => rfl
  | some l => simpa [cfg_get_raw] using json_object_get_update_other name v l k h

theorem cfg_get_raw_map_update_self (name : String) (v : Json)
    (o : Option (List (String × Json))) :
    cfg_get_raw name (o.map (json_object_update name v)) =
      (cfg_get_raw name o).map (fun _ => v) := by
  cases o with
  | none => rfl
  | some l => simpa [cfg_get_raw] using json_object_get_update_self name v l

theorem update_winning_layer_raw_other (st : ConfigState) (name : String) (v : Json)
    (k : String) (h : k ≠ name) :
    cfg_get_raw k (update_winning_layer st name v).arg_cfg = cfg_get_raw k st.arg_cfg ∧
    cfg_get_raw k (update_winning_layer st name v).global_cfg = cfg_get_raw k st.global_cfg := by
  unfold update_winning_layer
  split
  · exact ⟨cfg_get_raw_map_update_other name v st.arg_cfg k h, rfl⟩
  · split
    · exact ⟨rfl, cfg_get_raw_map_update_other name v st.global_cfg k h⟩
    · exact ⟨rfl, rfl⟩

theorem cfg_get_json_none_eq (st : ConfigState) (k : String) :
    cfg_get_json st none k =
      match cfg_get_raw k st.arg_cfg with
      | some val => some val
      | none => cfg_get_raw k st.global_cfg := rfl

theorem cfg_get_json_update_other (st : ConfigState) (name : String) (v : Json)
    (k : String) (h : k ≠ name) :
    cfg_get_json (update_winning_layer st name v) none k = cfg_get_json st none k := by
  obtain ⟨h1, h2⟩ := update_winning_layer_raw_other st name v k h
  rw [cfg_get_json_none_eq, cfg_get_json_none_eq, h1, h2]

theorem cfg_get_json_update_self (st : ConfigState) (name : String) (v w : Json)
    (h : cfg_get_json st none name = some w) :
    cfg_get_json (update_winning_layer st name v) none name = some v := by
  rw [cfg_get_json_none_eq] at h
  unfold update_winning_layer
  split
  next u harg =>
    rw [cfg_get_json_none_eq]
    simp [cfg_get_raw_map_update_self, harg]
  next harg =>
    split
    next u hg =>
      rw [cfg_get_json_none_eq]
      simp [cfg_get_raw_map_update_self, harg, hg]
    next hg =>
      rw [harg, hg] at h
      exact absurd h (by simp)

theorem cfg_get_bool_update_other (st : ConfigState) (name : String) (v : Json)
    (k : String) (d : Bool) (h : k ≠ name) :
    cfg_get_bool (update_winning_layer st name v) none k d = cfg_get_bool st none k d := by
  unfold cfg_get_bool
  rw [cfg_get_json_update_other st name v k h]

theorem read_enforce_update_other (st : ConfigState) (name : String) (v : Json)
    (h : "enforce_root_files" ≠ name) :
    read_enforce_root_files (update_winning_layer st name v) = read_enforce_root_files st := by
  unfold read_enforce_root_files
  rw [cfg_get_json_update_other st name v _ h]

/-! ## Branch characterizations of `cfg_compute_root_files` -/

theorem compute_root_files_rootfiles_case (st : ConfigState) (ign enf : Bool)
    (xs : List Json)
    (hflag : cfg_get_bool st none "_ignore_watchmanconfig" false = CfgResult.value ign)
    (henf : read_enforce_root_files st = CfgResult.value enf)
    (hrf : cfg_get_json st none "root_files" = some (Json.array xs))
    (htyp : is_array_of_strings (Json.array xs) = true) :
    cfg_compute_root_files st =
      RootFilesResult.ok (prepend_watchmanconfig_to_array xs) enf
        (update_winning_layer st "root_files"
          (Json.array (prepend_watchmanconfig_to_array xs))) := by
  unfold cfg_compute_root_files
  rw [hflag, henf, hrf]
  simp [htyp, json_array_elems]

theorem compute_root_files_restrict_case (st : ConfigState) (ign enf : Bool)
    (xs : List Json)
    (hflag : cfg_get_bool st none "_ignore_watchmanconfig" false = CfgResult.value ign)
    (henf : read_enforce_root_files st = CfgResult.value enf)
    (hrf : cfg_get_json st none "root_files" = none)
    (hrr : cfg_get_json st none "root_restrict_files" = some (Json.array xs))
    (htyp : is_array_of_strings (Json.array xs) = true) :
    cfg_compute_root_files st =
      (if ign then RootFilesResult.ok xs true st
       else
        RootFilesResult.ok (prepend_watchmanconfig_to_array xs) true
          (update_winning_layer st "root_restrict_files"
            (Json.array (prepend_watchmanconfig_to_array xs)))) := by
  unfold cfg_compute_root_files
  rw [hflag, henf, hrf, hrr]
  cases ign <;> simp [htyp, json_array_elems]

theorem compute_root_files_default_case (st : ConfigState) (ign enf : Bool)
    (hflag : cfg_get_bool st none "_ignore_watchmanconfig" false = CfgResult.value ign)
    (henf : read_enforce_root_files st = CfgResult.value enf)
    (hrf : cfg_get_json st none "root_files" = none)
    (hrr : cfg_get_json st none "root_restrict_files" = none) :
    cfg_compute_root_files st =
      (if ign then
        RootFilesResult.ok
          [Json.string ".hg", Json.string ".git", Json.string ".svn"] enf st
       else
        RootFilesResult.ok
          [Json.string ".watchmanconfig", Json.string ".hg",
           Json.string ".git", Json.string ".svn"] enf st) := by
  unfold cfg_compute_root_files
  rw [hflag, henf, hrf, hrr]
  cases ign <;> simp

/-! ## Claim theorems -/

/-- C1: for every configuration state in which the opt-out flag
`_ignore_watchmanconfig` reads as false, any marker sequence returned by
`cfg_compute_root_files` has the literal `".watchmanconfig"` as its
first element, whether it came from `root_files`, from
`root_restrict_files`, or was synthesized as the default. -/
theorem rootmarker_first_element (st : ConfigState) (files : List Json) (enf : Bool)
    (st' : ConfigState)
    (hflag : cfg_get_bool st none "_ignore_watchmanconfig" false = CfgResult.value false)
    (hok : cfg_compute_root_files st = RootFilesResult.ok files enf st') :
    files.head? = some (Json.string ".watchmanconfig") := by
  cases henf : read_enforce_root_files st with
  | fatal m =>
      have hc : cfg_compute_root_files st = RootFilesResult.fatal m := by
        unfold cfg_compute_root_files; rw [hflag, henf]
      rw [hc] at hok
      exact RootFilesResult.noConfusion hok
  | value enf2 =>
    cases hrf : cfg_get_json st none "root_files" with
    | some ref =>
        by_cases htyp : is_array_of_strings ref = true
        · obtain ⟨xs, rfl, -⟩ := is_array_of_strings_elim ref htyp
          rw [compute_root_files_rootfiles_case st false enf2 xs hflag henf hrf htyp] at hok
          injection hok with h1 h2 h3
          rw [← h1]
          exact prepend_head? xs
        · have hc : cfg_compute_root_files st =
              RootFilesResult.fatal "global config root_files must be an array of strings" := by
            unfold cfg_compute_root_files
            rw [hflag, henf, hrf]
            simp [htyp]
          rw [hc] at hok
          exact RootFilesResult.noConfusion hok
    | none =>
      cases hrr : cfg_get_json st none "root_restrict_files" with
      | some ref =>
          by_cases htyp : is_array_of_strings ref = true
          · obtain ⟨xs, rfl, -⟩ := is_array_of_strings_elim ref htyp
            rw [compute_root_files_restrict_case st false enf2 xs hflag henf hrf hrr htyp] at hok
            simp only [Bool.false_eq_true, if_false] at hok
            injection hok with h1 h2 h3
            rw [← h1]
            exact prepend_head? xs
          · have hc : cfg_compute_root_files st = RootFilesResult.fatal
                "deprecated global config root_restrict_files must be an array of strings" := by
              unfold cfg_compute_root_files
              rw [hflag, henf, hrf, hrr]
              simp [htyp]
            rw [hc] at hok
            exact RootFilesResult.noConfusion hok
      | none =>
          rw [compute_root_files_default_case st false enf2 hflag henf hrf hrr] at hok
          simp only [Bool.false_eq_true, if_false] at hok
          injection hok with h1 h2 h3
          rw [← h1]
          rfl

/-- Witness for C1 at the empty configuration: no key set, the flag
reads false and the synthesized default list starts with
`".watchmanconfig"`. -/
theorem rootmarker_first_element_witness :
    cfg_get_bool ⟨none, none⟩ none "_ignore_watchmanconfig" false = CfgResult.value false ∧
    cfg_compute_root_files ⟨none, none⟩ =
      RootFilesResult.ok
        [Json.string ".watchmanconfig", Json.string ".hg",
         Json.string ".git", Json.string ".svn"] false ⟨none, none⟩ ∧
    ([Json.string ".watchmanconfig", Json.string ".hg", Json.string ".git",
      Json.string ".svn"] : List Json).head? = some (Json.string ".watchmanconfig") :=
  ⟨rfl, rfl,
    rootmarker_first_element ⟨none, none⟩
      [Json.string ".watchmanconfig", Json.string ".hg",
       Json.string ".git", Json.string ".svn"] false ⟨none, none⟩ rfl rfl⟩

/-- C2: `cfg_get_json` precedence: the root view's value wins when a
root view is supplied and contains the key; otherwise the argument
layer's value if present, otherwise the global layer's value if present,
otherwise absent. -/
theorem cfg_get_json_precedence (st : ConfigState) (root : Option w_root_t)
    (name : String) :
    (∀ v, root_view_get root name = some v → cfg_get_json st root name = some v) ∧
    (root_view_get root name = none →
      (∀ v, cfg_get_raw name st.arg_cfg = some v → cfg_get_json st root name = some v) ∧
      (cfg_get_raw name st.arg_cfg = none →
        (∀ v, cfg_get_raw name st.global_cfg = some v →
          cfg_get_json st root name = some v) ∧
        (cfg_get_raw name st.global_cfg = none → cfg_get_json st root name = none))) := by
  unfold cfg_get_json
  exact ⟨fun v hv => by rw [hv],
    fun hr => ⟨fun v hv => by rw [hr, hv],
      fun ha => ⟨fun v hv => by rw [hr, ha, hv],
        fun hg => by rw [hr, ha, hg]⟩⟩⟩

/-- Witness for C2: a key present in all three sources resolves to the
root-view value; with the root view emptied it falls to the argument
layer, then the global layer, then to absent. -/
theorem cfg_get_json_precedence_witness :
    cfg_get_json ⟨some [("k", Json.integer 3)], some [("k", Json.integer 2)]⟩
        (some ⟨some [("k", Json.integer 1)]⟩) "k" = some (Json.integer 1) ∧
    cfg_get_json ⟨some [("k", Json.integer 3)], some [("k", Json.integer 2)]⟩
        (some ⟨some []⟩) "k" = some (Json.integer 2) ∧
    cfg_get_json ⟨some [("k", Json.integer 3)], none⟩ none "k" = some (Json.integer 3) ∧
    cfg_get_json ⟨none, none⟩ none "k" = none :=
  ⟨(cfg_get_json_precedence ⟨some [("k", Json.integer 3)], some [("k", Json.integer 2)]⟩
      (some ⟨some [("k", Json.integer 1)]⟩) "k").1 (Json.integer 1) rfl,
   ((cfg_get_json_precedence ⟨some [("k", Json.integer 3)], some [("k", Json.integer 2)]⟩
      (some ⟨some []⟩) "k").2 rfl).1 (Json.integer 2) rfl,
   (((cfg_get_json_precedence ⟨some [("k", Json.integer 3)], none⟩
      none "k").2 rfl).2 rfl).1 (Json.integer 3) rfl,
   (((cfg_get_json_precedence ⟨none, none⟩ none "k").2 rfl).2 rfl).2 rfl⟩

/-- C9: a key with no entry in the root view, the argument layer or the
global layer resolves to `none` (absent); a key explicitly set to the
Null variant resolves to `some Json.null`, which is distinct from
absent and stops the precedence fall-through at the layer holding it. -/
theorem absent_vs_explicit_null (st : ConfigState) (root : Option w_root_t)
    (name : String) :
    (root_view_get root name = none → cfg_get_raw name st.arg_cfg = none →
      cfg_get_raw name st.global_cfg = none → cfg_get_json st root name = none) ∧
    (root_view_get root name = none → cfg_get_raw name st.arg_cfg = some Json.null →
      cfg_get_json st root name = some Json.null) ∧
    (root_view_get root name = some Json.null →
      cfg_get_json st root name = some Json.null) ∧
    some Json.null ≠ (none : Option Json) := by
  unfold cfg_get_json
  exact ⟨fun hr ha hg => by rw [hr, ha, hg],
    fun hr ha => by rw [hr, ha],
    fun hr => by rw [hr],
    fun h => Option.noConfusion h⟩

/-- Witness for C9: the empty configuration resolves `"k"` to absent,
while an argument layer holding `"k" ↦ Null` resolves it to a present
Null even though the global layer maps `"k"` to an integer. -/
theorem absent_vs_explicit_null_witness :
    cfg_get_json ⟨none, none⟩ none "k" = none ∧
    cfg_get_json ⟨some [("k", Json.integer 3)], some [("k", Json.null)]⟩ none "k" =
      some Json.null ∧
    some Json.null ≠ (none : Option Json) :=
  ⟨(absent_vs_explicit_null ⟨none, none⟩ none "k").1 rfl rfl rfl,
   (absent_vs_explicit_null ⟨some [("k", Json.integer 3)], some [("k", Json.null)]⟩
      none "k").2.1 rfl rfl,
   (absent_vs_explicit_null ⟨none, none⟩ none "k").2.2.2⟩

/-- C6: a typed accessor that resolves a present value failing its type
check takes the fatal path — it never returns the caller-supplied
default; in particular `cfg_get_int` on a key holding a string value is
fatal. -/
theorem typed_accessor_mismatch_fatal (st : ConfigState) (root : Option w_root_t)
    (name : String) (v : Json) (hv : cfg_get_json st root name = some v) :
    (json_is_string v = false → ∀ d, cfg_get_string st root name d =
      CfgResult.fatal ("Expected config value " ++ name ++ " to be a string")) ∧
    (json_is_integer v = false → ∀ d, cfg_get_int st root name d =
      CfgResult.fatal ("Expected config value " ++ name ++ " to be an integer")) ∧
    (json_is_boolean v = false → ∀ d, cfg_get_bool st root name d =
      CfgResult.fatal ("Expected config value " ++ name ++ " to be a boolean")) ∧
    (json_is_number v = false → ∀ d, cfg_get_double st root name d =
      CfgResult.fatal ("Expected config value " ++ name ++ " to be a number")) ∧
    (∀ s, v = Json.string s → ∀ d, cfg_get_int st root name d ≠ CfgResult.value d) := by
  refine ⟨fun h d => ?_, fun h d => ?_, fun h d => ?_, fun h d => ?_, fun s hs d hd => ?_⟩
  · unfold cfg_get_string; rw [hv]; simp [h]
  · unfold cfg_get_int; rw [hv]; simp [h]
  · unfold cfg_get_bool; rw [hv]; simp [h]
  · unfold cfg_get_double; rw [hv]; simp [h]
  · subst hs
    have hfatal : cfg_get_int st root name d =
        CfgResult.fatal ("Expected config value " ++ name ++ " to be an integer") := by
      unfold cfg_get_int; rw [hv]; simp [json_is_integer]
    rw [hfatal] at hd
    exact CfgResult.noConfusion hd

/-- Witness for C6: with `"k" ↦ String "five"` in the global layer,
`cfg_get_int` is fatal and does not return the default 42. -/
theorem typed_accessor_mismatch_fatal_witness :
    cfg_get_json ⟨some [("k", Json.string "five")], none⟩ none "k" =
      some (Json.string "five") ∧
    cfg_get_int ⟨some [("k", Json.string "five")], none⟩ none "k" 42 =
      CfgResult.fatal "Expected config value k to be an integer" ∧
    cfg_get_int ⟨some [("k", Json.string "five")], none⟩ none "k" 42 ≠
      CfgResult.value 42 :=
  ⟨rfl,
   (typed_accessor_mismatch_fatal ⟨some [("k", Json.string "five")], none⟩ none "k"
      (Json.string "five") rfl).2.1 rfl 42,
   (typed_accessor_mismatch_fatal ⟨some [("k", Json.string "five")], none⟩ none "k"
      (Json.string "five") rfl).2.2.2.2 "five" rfl 42⟩

/-- C7 counterexample: with the global layer holding `k ↦ Integer 5`,
`cfg_get_double` does not take the fatal type-error path: its check is
`json_is_number`, which accepts the integer variant, and it returns
`json_real_value` of the value (0, not the default 7). -/
theorem double_accessor_accepts_integer_cx :
    cfg_get_double ⟨some [("k", Json.integer 5)], none⟩ none "k" (7 : Rat) =
      CfgResult.value 0 ∧
    ¬ ∃ m, cfg_get_double ⟨some [("k", Json.integer 5)], none⟩ none "k" (7 : Rat) =
      CfgResult.fatal m := by
  refine ⟨rfl, fun ⟨m, hm⟩ => ?_⟩
  rw [show cfg_get_double ⟨some [("k", Json.integer 5)], none⟩ none "k" (7 : Rat) =
      CfgResult.value 0 from rfl] at hm
  exact CfgResult.noConfusion hm

/-- C7 amended: `cfg_get_double`'s type check is `json_is_number`, so an
integer-variant value is accepted — no fatal path — and
`json_real_value` of it, which is 0, is returned; a real-variant value
returns its payload; the integer accessor does reject a real-valued
number as fatal. -/
theorem double_accessor_number_check (st : ConfigState) (root : Option w_root_t)
    (name : String) :
    (∀ (n : Int) (d : Rat), cfg_get_json st root name = some (Json.integer n) →
      cfg_get_double st root name d = CfgResult.value 0) ∧
    (∀ (r d : Rat), cfg_get_json st root name = some (Json.real r) →
      cfg_get_double st root name d = CfgResult.value r) ∧
    (∀ (r : Rat) (d : Int), cfg_get_json st root name = some (Json.real r) →
      cfg_get_int st root name d =
        CfgResult.fatal ("Expected config value " ++ name ++ " to be an integer")) := by
  refine ⟨fun n d hv => ?_, fun r d hv => ?_, fun r d hv => ?_⟩
  · unfold cfg_get_double; rw [hv]
    simp [json_is_number, json_is_integer, json_real_value]
  · unfold cfg_get_double; rw [hv]
    simp [json_is_number, json_is_real, json_real_value]
  · unfold cfg_get_int; rw [hv]
    simp [json_is_integer]

/-- Witness for the amended C7: `k ↦ Integer 5` is accepted by the
double accessor (returning 0), and `k ↦ Double 3/2` is rejected by the
integer accessor. -/
theorem double_accessor_number_check_witness :
    cfg_get_double ⟨some [("k", Json.integer 5)], none⟩ none "k" (7 : Rat) =
      CfgResult.value 0 ∧
    cfg_get_double ⟨some [("k", Json.real (3 / 2))], none⟩ none "k" (7 : Rat) =
      CfgResult.value (3 / 2) ∧
    cfg_get_int ⟨some [("k", Json.real (3 / 2))], none⟩ none "k" 42 =
      CfgResult.fatal "Expected config value k to be an integer" :=
  ⟨(double_accessor_number_check ⟨some [("k", Json.integer 5)], none⟩ none "k").1
      5 7 rfl,
   (double_accessor_number_check ⟨some [("k", Json.real (3 / 2))], none⟩ none "k").2.1
      (3 / 2) 7 rfl,
   (double_accessor_number_check ⟨some [("k", Json.real (3 / 2))], none⟩ none "k").2.2
      (3 / 2) 42 rfl⟩

theorem prepend_eq_cases (xs : List Json) :
    (xs.head? = some (Json.string ".watchmanconfig") →
      prepend_watchmanconfig_to_array xs = xs) ∧
    (xs.head? ≠ some (Json.string ".watchmanconfig") →
      prepend_watchmanconfig_to_array xs = Json.string ".watchmanconfig" :: xs) := by
  cases xs with
  | nil => exact ⟨fun h => by simp at h, fun _ => rfl⟩
  | cons first rest =>
      constructor
      · intro h
        have hf : first = Json.string ".watchmanconfig" := by simpa using h
        subst hf
        exact prepend_cons_wmc rest
      · intro h
        have hf : first ≠ Json.string ".watchmanconfig" := fun hc => h (by rw [hc]; rfl)
        exact prepend_cons_ne first rest hf

theorem is_array_of_strings_intro (xs : List Json)
    (h : ∀ x ∈ xs, json_is_string x = true) :
    is_array_of_strings (Json.array xs) = true := by
  simpa [is_array_of_strings, List.all_eq_true] using h

/-- C3: when `root_files` resolves to an array of strings, the result is
that array with `".watchmanconfig"` ensured at index 0: unchanged when
index 0 already is that string (membership elsewhere is not considered),
prepended otherwise — so an empty array yields the singleton; the
opt-out flag value `ign` is arbitrary (it does not suppress the
prepend) and the enforcing flag is exactly the value read from
`enforce_root_files` (false when that key is absent). -/
theorem rootfiles_branch_spec (st : ConfigState) (ign enf : Bool) (xs : List Json)
    (hflag : cfg_get_bool st none "_ignore_watchmanconfig" false = CfgResult.value ign)
    (henf : read_enforce_root_files st = CfgResult.value enf)
    (hrf : cfg_get_json st none "root_files" = some (Json.array xs))
    (htyp : is_array_of_strings (Json.array xs) = true) :
    ∃ st' files, cfg_compute_root_files st = RootFilesResult.ok files enf st' ∧
      (xs.head? = some (Json.string ".watchmanconfig") → files = xs) ∧
      (xs.head? ≠ some (Json.string ".watchmanconfig") →
        files = Json.string ".watchmanconfig" :: xs) := by
  refine ⟨_, prepend_watchmanconfig_to_array xs,
    compute_root_files_rootfiles_case st ign enf xs hflag henf hrf htyp,
    (prepend_eq_cases xs).1, (prepend_eq_cases xs).2⟩

/-- Witness for C3: `root_files = ["foo"]` with no other key set gives
`[".watchmanconfig", "foo"]` and `enforcing = false`; additionally the
opt-out flag set true in the same layer does not suppress the prepend. -/
theorem rootfiles_branch_spec_witness :
    (∃ st' files,
      cfg_compute_root_files ⟨some [("root_files", Json.array [Json.string "foo"])], none⟩ =
        RootFilesResult.ok files false st' ∧
      (([Json.string "foo"] : List Json).head? = some (Json.string ".watchmanconfig") →
        files = [Json.string "foo"]) ∧
      (([Json.string "foo"] : List Json).head? ≠ some (Json.string ".watchmanconfig") →
        files = Json.string ".watchmanconfig" :: [Json.string "foo"])) ∧
    (∃ st' files,
      cfg_compute_root_files
          ⟨some [("root_files", Json.array []),
                 ("_ignore_watchmanconfig", Json.bool true)], none⟩ =
        RootFilesResult.ok files false st' ∧
      (([] : List Json).head? = some (Json.string ".watchmanconfig") → files = []) ∧
      (([] : List Json).head? ≠ some (Json.string ".watchmanconfig") →
        files = [Json.string ".watchmanconfig"])) :=
  ⟨rootfiles_branch_spec ⟨some [("root_files", Json.array [Json.string "foo"])], none⟩
      false false [Json.string "foo"] rfl rfl rfl rfl,
   rootfiles_branch_spec
      ⟨some [("root_files", Json.array []), ("_ignore_watchmanconfig", Json.bool true)], none⟩
      true false [] rfl rfl rfl rfl⟩

/-- C4: when `root_files` does not resolve but the deprecated
`root_restrict_files` resolves to an array of strings, the result is
that array — with `".watchmanconfig"` ensured at index 0 only when the
opt-out flag is false — and the enforcing flag is true regardless of the
`enforce_root_files` value `enf`. -/
theorem restrict_branch_spec (st : ConfigState) (ign enf : Bool) (xs : List Json)
    (hflag : cfg_get_bool st none "_ignore_watchmanconfig" false = CfgResult.value ign)
    (henf : read_enforce_root_files st = CfgResult.value enf)
    (hrf : cfg_get_json st none "root_files" = none)
    (hrr : cfg_get_json st none "root_restrict_files" = some (Json.array xs))
    (htyp : is_array_of_strings (Json.array xs) = true) :
    ∃ st' files, cfg_compute_root_files st = RootFilesResult.ok files true st' ∧
      (ign = true → files = xs) ∧
      (ign = false →
        (xs.head? = some (Json.string ".watchmanconfig") → files = xs) ∧
        (xs.head? ≠ some (Json.string ".watchmanconfig") →
          files = Json.string ".watchmanconfig" :: xs)) := by
  have hc := compute_root_files_restrict_case st ign enf xs hflag henf hrf hrr htyp
  cases ign with
  | true =>
      rw [if_pos rfl] at hc
      exact ⟨st, xs, hc, fun _ => rfl, fun h => Bool.noConfusion h⟩
  | false =>
      rw [if_neg (by simp)] at hc
      exact ⟨_, prepend_watchmanconfig_to_array xs, hc,
        fun h => Bool.noConfusion h,
        fun _ => ⟨(prepend_eq_cases xs).1, (prepend_eq_cases xs).2⟩⟩

/-- Witness for C4: `root_restrict_files = ["bar"]` with
`enforce_root_files = false` gives `[".watchmanconfig", "bar"]` and
`enforcing = true` (forced). -/
theorem restrict_branch_spec_witness :
    ∃ st' files,
      cfg_compute_root_files
          ⟨some [("root_restrict_files", Json.array [Json.string "bar"]),
                 ("enforce_root_files", Json.bool false)], none⟩ =
        RootFilesResult.ok files true st' ∧
      (false = true → files = [Json.string "bar"]) ∧
      (false = false →
        (([Json.string "bar"] : List Json).head? = some (Json.string ".watchmanconfig") →
          files = [Json.string "bar"]) ∧
        (([Json.string "bar"] : List Json).head? ≠ some (Json.string ".watchmanconfig") →
          files = Json.string ".watchmanconfig" :: [Json.string "bar"])) :=
  restrict_branch_spec
    ⟨some [("root_restrict_files", Json.array [Json.string "bar"]),
           ("enforce_root_files", Json.bool false)], none⟩
    false false [Json.string "bar"] rfl rfl rfl rfl rfl

/-- C5: when neither `root_files` nor `root_restrict_files` resolves,
the result is exactly `[".watchmanconfig", ".hg", ".git", ".svn"]` when
the opt-out flag is false and exactly `[".hg", ".git", ".svn"]` when it
is true, with the enforcing flag exactly the value read from
`enforce_root_files` (false when that key is absent), and the
configuration state untouched. -/
theorem default_branch_spec (st : ConfigState) (ign enf : Bool)
    (hflag : cfg_get_bool st none "_ignore_watchmanconfig" false = CfgResult.value ign)
    (henf : read_enforce_root_files st = CfgResult.value enf)
    (hrf : cfg_get_json st none "root_files" = none)
    (hrr : cfg_get_json st none "root_restrict_files" = none) :
    cfg_compute_root_files st =
      RootFilesResult.ok
        (if ign then [Json.string ".hg", Json.string ".git", Json.string ".svn"]
         else
          [Json.string ".watchmanconfig", Json.string ".hg",
           Json.string ".git", Json.string ".svn"]) enf st := by
  have hc := compute_root_files_default_case st ign enf hflag henf hrf hrr
  cases ign with
  | true => rw [if_pos rfl] at hc; rw [if_pos rfl]; exact hc
  | false => rw [if_neg (by simp)] at hc; rw [if_neg (by simp)]; exact hc

/-- Witness for C5: no key set gives the default list starting with
`".watchmanconfig"` and `enforcing = false`; with
`_ignore_watchmanconfig = true` the marker is left out. -/
theorem default_branch_spec_witness :
    cfg_compute_root_files ⟨none, none⟩ =
      RootFilesResult.ok
        (if false then [Json.string ".hg", Json.string ".git", Json.string ".svn"]
         else
          [Json.string ".watchmanconfig", Json.string ".hg",
           Json.string ".git", Json.string ".svn"]) false ⟨none, none⟩ ∧
    cfg_compute_root_files ⟨some [("_ignore_watchmanconfig", Json.bool true)], none⟩ =
      RootFilesResult.ok
        (if true then [Json.string ".hg", Json.string ".git", Json.string ".svn"]
         else
          [Json.string ".watchmanconfig", Json.string ".hg",
           Json.string ".git", Json.string ".svn"]) false
        ⟨some [("_ignore_watchmanconfig", Json.bool true)], none⟩ :=
  ⟨default_branch_spec ⟨none, none⟩ false false rfl rfl rfl rfl,
   default_branch_spec ⟨some [("_ignore_watchmanconfig", Json.bool true)], none⟩
     true false rfl rfl rfl rfl⟩

/-- C8 counterexample: two states with the same global layer (which does
not set `_ignore_watchmanconfig`) but different argument layers produce
different marker lists: with `_ignore_watchmanconfig = true` only in the
argument layer the list is `[".hg", ".git", ".svn"]`, while with an
empty argument layer it is the default starting with
`".watchmanconfig"` — so the list is not determined by the global
layer's value of the flag alone. -/
theorem ignore_flag_not_global_only_cx :
    cfg_compute_root_files ⟨some [], some [("_ignore_watchmanconfig", Json.bool true)]⟩ =
      RootFilesResult.ok [Json.string ".hg", Json.string ".git", Json.string ".svn"]
        false ⟨some [], some [("_ignore_watchmanconfig", Json.bool true)]⟩ ∧
    cfg_compute_root_files ⟨some [], some []⟩ =
      RootFilesResult.ok
        [Json.string ".watchmanconfig", Json.string ".hg", Json.string ".git",
         Json.string ".svn"] false ⟨some [], some []⟩ ∧
    ([Json.string ".hg", Json.string ".git", Json.string ".svn"] : List Json) ≠
      [Json.string ".watchmanconfig", Json.string ".hg", Json.string ".git",
       Json.string ".svn"] := by
  refine ⟨rfl, rfl, fun h => ?_⟩
  simpa using congrArg List.length h

/-- C8 amended: `cfg_compute_root_files` reads `_ignore_watchmanconfig`
through the boolean accessor with no root context, so the flag — and,
in the synthesized-default case, the marker list — is taken from the
argument layer when that layer holds the key, else from the global
layer, regardless of what the other layer holds; no root view is
consulted (the computation takes none). -/
theorem ignore_flag_layer_precedence (st : ConfigState) (b enf : Bool)
    (henf : read_enforce_root_files st = CfgResult.value enf)
    (hrf : cfg_get_json st none "root_files" = none)
    (hrr : cfg_get_json st none "root_restrict_files" = none) :
    (cfg_get_raw "_ignore_watchmanconfig" st.arg_cfg = some (Json.bool b) →
      cfg_compute_root_files st =
        RootFilesResult.ok
          (if b then [Json.string ".hg", Json.string ".git", Json.string ".svn"]
           else
            [Json.string ".watchmanconfig", Json.string ".hg",
             Json.string ".git", Json.string ".svn"]) enf st) ∧
    (cfg_get_raw "_ignore_watchmanconfig" st.arg_cfg = none →
      cfg_get_raw "_ignore_watchmanconfig" st.global_cfg = some (Json.bool b) →
      cfg_compute_root_files st =
        RootFilesResult.ok
          (if b then [Json.string ".hg", Json.string ".git", Json.string ".svn"]
           else
            [Json.string ".watchmanconfig", Json.string ".hg",
             Json.string ".git", Json.string ".svn"]) enf st) := by
  constructor
  · intro ha
    have hflag : cfg_get_bool st none "_ignore_watchmanconfig" false = CfgResult.value b := by
      unfold cfg_get_bool
      rw [cfg_get_json_none_eq, ha]
      simp [json_is_boolean, json_is_true]
    have hc := compute_root_files_default_case st b enf hflag henf hrf hrr
    cases b with
    | true => rw [if_pos rfl] at hc; rw [if_pos rfl]; exact hc
    | false => rw [if_neg (by simp)] at hc; rw [if_neg (by simp)]; exact hc
  · intro ha hg
    have hflag : cfg_get_bool st none "_ignore_watchmanconfig" false = CfgResult.value b := by
      unfold cfg_get_bool
      rw [cfg_get_json_none_eq, ha, hg]
      simp [json_is_boolean, json_is_true]
    have hc := compute_root_files_default_case st b enf hflag henf hrf hrr
    cases b with
    | true => rw [if_pos rfl] at hc; rw [if_pos rfl]; exact hc
    | false => rw [if_neg (by simp)] at hc; rw [if_neg (by simp)]; exact hc

/-- Witness for the amended C8: the argument layer's
`_ignore_watchmanconfig = true` decides the list even though the global
layer does not set the flag, and with an empty argument layer a global
`_ignore_watchmanconfig = true` decides it. -/
theorem ignore_flag_layer_precedence_witness :
    cfg_compute_root_files ⟨some [], some [("_ignore_watchmanconfig", Json.bool true)]⟩ =
      RootFilesResult.ok
        (if true then [Json.string ".hg", Json.string ".git", Json.string ".svn"]
         else
          [Json.string ".watchmanconfig", Json.string ".hg",
           Json.string ".git", Json.string ".svn"]) false
        ⟨some [], some [("_ignore_watchmanconfig", Json.bool true)]⟩ ∧
    cfg_compute_root_files ⟨some [("_ignore_watchmanconfig", Json.bool true)], some []⟩ =
      RootFilesResult.ok
        (if true then [Json.string ".hg", Json.string ".git", Json.string ".svn"]
         else
          [Json.string ".watchmanconfig", Json.string ".hg",
           Json.string ".git", Json.string ".svn"]) false
        ⟨some [("_ignore_watchmanconfig", Json.bool true)], some []⟩ :=
  ⟨(ignore_flag_layer_precedence
      ⟨some [], some [("_ignore_watchmanconfig", Json.bool true)]⟩
      true false rfl rfl rfl).1 rfl,
   (ignore_flag_layer_precedence
      ⟨some [("_ignore_watchmanconfig", Json.bool true)], some []⟩
      true false rfl rfl rfl).2 rfl rfl⟩

/-- C10: `cfg_compute_root_files` is not a pure read: when `root_files`
(or, with the opt-out flag false, the legacy `root_restrict_files`)
resolves to a string array whose index 0 is not `".watchmanconfig"`,
the call rewrites the winning layer's stored array in place, so
afterwards the stored value itself begins with `".watchmanconfig"`, a
second call returns the same list, and no key other than the resolved
one changes in either layer. -/
theorem compute_root_files_mutates_in_place (st : ConfigState) (ign enf : Bool)
    (xs : List Json)
    (hflag : cfg_get_bool st none "_ignore_watchmanconfig" false = CfgResult.value ign)
    (henf : read_enforce_root_files st = CfgResult.value enf)
    (hstr : ∀ x ∈ xs, json_is_string x = true)
    (hhead : xs.head? ≠ some (Json.string ".watchmanconfig")) :
    (cfg_get_json st none "root_files" = some (Json.array xs) →
      ∃ st',
        cfg_compute_root_files st =
          RootFilesResult.ok (Json.string ".watchmanconfig" :: xs) enf st' ∧
        cfg_get_json st' none "root_files" =
          some (Json.array (Json.string ".watchmanconfig" :: xs)) ∧
        (∀ k, k ≠ "root_files" →
          cfg_get_raw k st'.arg_cfg = cfg_get_raw k st.arg_cfg ∧
          cfg_get_raw k st'.global_cfg = cfg_get_raw k st.global_cfg) ∧
        (∃ st2, cfg_compute_root_files st' =
          RootFilesResult.ok (Json.string ".watchmanconfig" :: xs) enf st2)) ∧
    (ign = false →
      cfg_get_json st none "root_files" = none →
      cfg_get_json st none "root_restrict_files" = some (Json.array xs) →
      ∃ st',
        cfg_compute_root_files st =
          RootFilesResult.ok (Json.string ".watchmanconfig" :: xs) true st' ∧
        cfg_get_json st' none "root_restrict_files" =
          some (Json.array (Json.string ".watchmanconfig" :: xs)) ∧
        (∀ k, k ≠ "root_restrict_files" →
          cfg_get_raw k st'.arg_cfg = cfg_get_raw k st.arg_cfg ∧
          cfg_get_raw k st'.global_cfg = cfg_get_raw k st.global_cfg) ∧
        (∃ st2, cfg_compute_root_files st' =
          RootFilesResult.ok (Json.string ".watchmanconfig" :: xs) true st2)) := by
  have htyp : is_array_of_strings (Json.array xs) = true :=
    is_array_of_strings_intro xs hstr
  have hprep : prepend_watchmanconfig_to_array xs =
      Json.string ".watchmanconfig" :: xs := (prepend_eq_cases xs).2 hhead
  have htyp2 : is_array_of_strings
      (Json.array (Json.string ".watchmanconfig" :: xs)) = true := by
    apply is_array_of_strings_intro
    intro x hx
    rcases List.mem_cons.mp hx with h | h
    · subst h; rfl
    · exact hstr x h
  constructor
  · intro hrf
    refine ⟨update_winning_layer st "root_files"
        (Json.array (Json.string ".watchmanconfig" :: xs)), ?_, ?_, ?_, ?_⟩
    · have hc := compute_root_files_rootfiles_case st ign enf xs hflag henf hrf htyp
      rw [hprep] at hc
      exact hc
    · exact cfg_get_json_update_self st "root_files" _ _ hrf
    · intro k hk
      exact update_winning_layer_raw_other st "root_files" _ k hk
    · have hflag' : cfg_get_bool
          (update_winning_layer st "root_files"
            (Json.array (Json.string ".watchmanconfig" :: xs)))
          none "_ignore_watchmanconfig" false = CfgResult.value ign := by
        rw [cfg_get_bool_update_other st "root_files" _ _ false (by decide)]
        exact hflag
      have henf' : read_enforce_root_files
          (update_winning_layer st "root_files"
            (Json.array (Json.string ".watchmanconfig" :: xs))) = CfgResult.value enf := by
        rw [read_enforce_update_other st "root_files" _ (by decide)]
        exact henf
      have hrf' := cfg_get_json_update_self st "root_files"
        (Json.array (Json.string ".watchmanconfig" :: xs)) _ hrf
      have hc := compute_root_files_rootfiles_case _ ign enf
        (Json.string ".watchmanconfig" :: xs) hflag' henf' hrf' htyp2
      rw [prepend_cons_wmc] at hc
      exact ⟨_, hc⟩
  · intro hign hrf hrr
    subst hign
    refine ⟨update_winning_layer st "root_restrict_files"
        (Json.array (Json.string ".watchmanconfig" :: xs)), ?_, ?_, ?_, ?_⟩
    · have hc := compute_root_files_restrict_case st false enf xs hflag henf hrf hrr htyp
      rw [if_neg (by simp), hprep] at hc
      exact hc
    · exact cfg_get_json_update_self st "root_restrict_files" _ _ hrr
    · intro k hk
      exact update_winning_layer_raw_other st "root_restrict_files" _ k hk
    · have hflag' : cfg_get_bool
          (update_winning_layer st "root_restrict_files"
            (Json.array (Json.string ".watchmanconfig" :: xs)))
          none "_ignore_watchmanconfig" false = CfgResult.value false := by
        rw [cfg_get_bool_update_other st "root_restrict_files" _ _ false (by decide)]
        exact hflag
      have henf' : read_enforce_root_files
          (update_winning_layer st "root_restrict_files"
            (Json.array (Json.string ".watchmanconfig" :: xs))) = CfgResult.value enf := by
        rw [read_enforce_update_other st "root_restrict_files" _ (by decide)]
        exact henf
      have hrf' : cfg_get_json
          (update_winning_layer st "root_restrict_files"
            (Json.array (Json.string ".watchmanconfig" :: xs)))
          none "root_files" = none := by
        rw [cfg_get_json_update_other st "root_restrict_files" _ "root_files" (by decide)]
        exact hrf
      have hrr' := cfg_get_json_update_self st "root_restrict_files"
        (Json.array (Json.string ".watchmanconfig" :: xs)) _ hrr
      have hc := compute_root_files_restrict_case _ false enf
        (Json.string ".watchmanconfig" :: xs) hflag' henf' hrf' hrr' htyp2
      rw [if_neg (by simp), prepend_cons_wmc] at hc
      exact ⟨_, hc⟩

/-- Witness for C10: `root_files = ["foo"]` stored in the global layer
(next to another key) is rewritten in place to start with
`".watchmanconfig"`, other keys untouched, and a second call returns the
same list; likewise for `root_restrict_files = ["bar"]`. -/
theorem compute_root_files_mutates_in_place_witness :
    (∃ st',
      cfg_compute_root_files
          ⟨some [("root_files", Json.array [Json.string "foo"]),
                 ("other", Json.integer 7)], none⟩ =
        RootFilesResult.ok
          (Json.string ".watchmanconfig" :: [Json.string "foo"]) false st' ∧
      cfg_get_json st' none "root_files" =
        some (Json.array (Json.string ".watchmanconfig" :: [Json.string "foo"])) ∧
      (∀ k, k ≠ "root_files" →
        cfg_get_raw k st'.arg_cfg =
          cfg_get_raw k (none : Option (List (String × Json))) ∧
        cfg_get_raw k st'.global_cfg =
          cfg_get_raw k (some [("root_files", Json.array [Json.string "foo"]),
                               ("other", Json.integer 7)])) ∧
      (∃ st2,
        cfg_compute_root_files st' =
          RootFilesResult.ok
            (Json.string ".watchmanconfig" :: [Json.string "foo"]) false st2)) ∧
    (∃ st',
      cfg_compute_root_files
          ⟨some [("root_restrict_files", Json.array [Json.string "bar"])], none⟩ =
        RootFilesResult.ok
          (Json.string ".watchmanconfig" :: [Json.string "bar"]) true st' ∧
      cfg_get_json st' none "root_restrict_files" =
        some (Json.array (Json.string ".watchmanconfig" :: [Json.string "bar"])) ∧
      (∀ k, k ≠ "root_restrict_files" →
        cfg_get_raw k st'.arg_cfg =
          cfg_get_raw k (none : Option (List (String × Json))) ∧
        cfg_get_raw k st'.global_cfg =
          cfg_get_raw k (some [("root_restrict_files", Json.array [Json.string "bar"])])) ∧
      (∃ st2,
        cfg_compute_root_files st' =
          RootFilesResult.ok
            (Json.string ".watchmanconfig" :: [Json.string "bar"]) true st2)) :=
  ⟨(compute_root_files_mutates_in_place
      ⟨some [("root_files", Json.array [Json.string "foo"]),
             ("other", Json.integer 7)], none⟩
      false false [Json.string "foo"] rfl rfl
      (fun x hx => by rw [List.mem_singleton] at hx; subst hx; rfl)
      (fun h => absurd (Json.string.inj (Option.some.inj h)) (by decide))).1 rfl,
   (compute_root_files_mutates_in_place
      ⟨some [("root_restrict_files", Json.array [Json.string "bar"])], none⟩
      false false [Json.string "bar"] rfl rfl
      (fun x hx => by rw [List.mem_singleton] at hx; subst hx; rfl)
      (fun h => absurd (Json.string.inj (Option.some.inj h)) (by decide))).2 rfl rfl rfl⟩
